import Mathlib

/-!
Verification development for the haste GRU TensorFlow operator wrapper.

Sources embedded here:
* `src/lib/inline_ops.h` — element-wise activation primitives `sigmoid`,
  `d_sigmoid`, `d_tanh`.
* `src/frameworks/tf/gru.cc` — the `HasteGruOp<T>::Compute` forward driver,
  the `HasteGruGradOp<T>::Compute` backward driver, and the process-wide
  cuBLAS handle cache (`CublasHandleContainer`, `GetCublasHandle`).

The per-timestep numerical kernels `ForwardPass<T>::Iterate` and
`BackwardPass<T>::Iterate` live in the haste library proper and are not part
of this repository; where a property depends on them they are modelled from
the specification as abstract step functions (see `FwdCell` and `BwdCell`).
-/

namespace HasteGru

/-! ### Element-wise primitives, embedded from `src/lib/inline_ops.h` -/

/-- Embedding of `sigmoid` from `src/lib/inline_ops.h`:
`1.0 / (1.0 + exp(-x))`. -/
noncomputable def sigmoid (x : ℝ) : ℝ := 1 / (1 + Real.exp (-x))

/-- Embedding of `d_sigmoid` from `src/lib/inline_ops.h`:
`sigmoid_output * (1.0 - sigmoid_output)`.  The argument is the already
computed activation value, not the pre-activation. -/
noncomputable def d_sigmoid (sigmoid_output : ℝ) : ℝ :=
  sigmoid_output * (1 - sigmoid_output)

/-- Embedding of `d_tanh` from `src/lib/inline_ops.h`:
`1.0 - tanh_output * tanh_output`.  The argument is the already computed
activation value, not the pre-activation. -/
noncomputable def d_tanh (tanh_output : ℝ) : ℝ :=
  1 - tanh_output * tanh_output

/-- Applying `d_sigmoid` to the activation value `sigmoid x` yields the true
derivative of `sigmoid` at the pre-activation `x`. -/
theorem sigmoid_hasDerivAt (x : ℝ) :
    HasDerivAt sigmoid (d_sigmoid (sigmoid x)) x := by
  have hneg : HasDerivAt (fun y : ℝ => -y) (-1 : ℝ) x := (hasDerivAt_id x).neg
  have hexp : HasDerivAt (fun y : ℝ => Real.exp (-y)) (-Real.exp (-x)) x := by
    simpa using (Real.hasDerivAt_exp (-x)).comp x hneg
  have hden : HasDerivAt (fun y : ℝ => 1 + Real.exp (-y)) (-Real.exp (-x)) x := by
    simpa using hexp.const_add 1
  have hpos : (0 : ℝ) < 1 + Real.exp (-x) := by positivity
  have hne : (1 : ℝ) + Real.exp (-x) ≠ 0 := ne_of_gt hpos
  have hinv := hden.inv hne
  have heq : sigmoid = fun y : ℝ => (1 + Real.exp (-y))⁻¹ := by
    funext y
    simp [sigmoid, one_div]
  rw [heq]
  convert hinv using 1
  have hval : d_sigmoid ((1 + Real.exp (-x))⁻¹)
      = Real.exp (-x) / (1 + Real.exp (-x)) ^ 2 := by
    field_simp [d_sigmoid]
    ring
  rw [hval]
  field_simp

/-- Applying `d_tanh` to the activation value `tanh x` yields the true
derivative of `tanh` at the pre-activation `x`. -/
theorem tanh_hasDerivAt (x : ℝ) :
    HasDerivAt Real.tanh (d_tanh (Real.tanh x)) x := by
  have hs := Real.hasDerivAt_sinh x
  have hc := Real.hasDerivAt_cosh x
  have hcne : Real.cosh x ≠ 0 := ne_of_gt (Real.cosh_pos x)
  have h2 : Real.cosh x ^ 2 ≠ 0 := pow_ne_zero 2 hcne
  have hdiv := hs.div hc hcne
  have heq : Real.tanh = fun y : ℝ => Real.sinh y / Real.cosh y :=
    funext fun y => Real.tanh_eq_sinh_div_cosh y
  have hval : d_tanh (Real.tanh x)
      = (Real.cosh x * Real.cosh x - Real.sinh x * Real.sinh x) / Real.cosh x ^ 2 := by
    rw [d_tanh, Real.tanh_eq_sinh_div_cosh, div_mul_div_comm,
      show Real.cosh x * Real.cosh x - Real.sinh x * Real.sinh x
        = Real.cosh x ^ 2 - Real.sinh x ^ 2 from by ring,
      sub_div, div_self h2]
    ring
  rw [hval, heq]
  exact hdiv

/-! ### Tensor and buffer model for the TensorFlow wrapper

A device tensor is modelled by its logical shape and its flat row-major
contents.  `subSlice` models `Tensor::SubSlice(i)`: the contiguous slice of
the first axis. -/

structure Tensor where
  shape : List ℕ
  data : List ℚ
deriving Repr, DecidableEq

/-- Embedding of `TensorShape::dim_size(i)`. -/
def Tensor.dimSize (t : Tensor) (i : ℕ) : ℕ := t.shape.getD i 0

/-- Embedding of `Tensor::NumElements()`: the product of all dimensions. -/
def Tensor.numElements (t : Tensor) : ℕ := t.shape.foldr (fun a b => a * b) 1

/-- Number of scalar elements in one slice of the first axis. -/
def Tensor.sliceLen (t : Tensor) : ℕ := (t.shape.drop 1).foldr (fun a b => a * b) 1

/-- Embedding of `Tensor::SubSlice(i)`: the contents of the i-th slice of the
first axis. -/
def Tensor.subSlice (t : Tensor) (i : ℕ) : List ℚ :=
  (t.data.drop (i * t.sliceLen)).take t.sliceLen

/-- Concatenation of per-timestep slices into one flat buffer. -/
def concatAll (l : List (List ℚ)) : List ℚ := l.foldr (fun a b => a ++ b) []

/-! ### Forward pass: `HasteGruOp<T>::Compute` from `src/frameworks/tf/gru.cc` -/

/-- Arguments the wrapper passes to one `ForwardPass<T>::Iterate` call
(gru.cc lines 174-186).  `h` records the contents of the previous-hidden
buffer at call time; `v_isNull` records whether the recorded-intermediate
target pointer is null; `zoneout_mask = none` models a null mask pointer. -/
structure FwdArgs where
  kernel : List ℚ
  recurrent_kernel : List ℚ
  bias : List ℚ
  recurrent_bias : List ℚ
  x : List ℚ
  h : List ℚ
  v_isNull : Bool
  zoneout_prob : ℚ
  zoneout_mask : Option (List ℚ)
deriving Repr, DecidableEq

/-- Modelled from the spec: the numerical behaviour of
`ForwardPass<T>::Iterate`, which is not part of this repository (only its
caller is).  One step is a deterministic function of the call arguments,
producing the new hidden state `h[t]` and the recorded intermediate `v[t]`. -/
structure FwdCell where
  newH : FwdArgs → List ℚ
  vOut : FwdArgs → List ℚ

/-- The six input tensors of the `HasteGru` op, in declaration order. -/
structure GruInputs where
  x : Tensor
  kernel : Tensor
  recurrent_kernel : Tensor
  bias : Tensor
  recurrent_bias : Tensor
  zoneout_mask : Tensor
deriving Repr, DecidableEq

/-- Embedding of `has_zoneout = zoneout_prob_ && zoneout_mask.NumElements()`
(gru.cc line 134): zoneout is considered active only when the probability is
nonzero and the mask tensor is non-empty. -/
def fwdHasZoneout (zoneout_prob : ℚ) (zoneout_mask : Tensor) : Bool :=
  decide (zoneout_prob ≠ 0) && decide (zoneout_mask.numElements ≠ 0)

/-- Embedding of the zoneout arguments passed to each forward Iterate call
(gru.cc lines 185-186): `has_zoneout ? zoneout_prob_ : 0.0f` and
`has_zoneout ? zoneout_mask.SubSlice(i)... : nullptr`. -/
def fwdZoneoutArg (zoneout_prob : ℚ) (zoneout_mask : Tensor) (i : ℕ) :
    ℚ × Option (List ℚ) :=
  if fwdHasZoneout zoneout_prob zoneout_mask then
    (zoneout_prob, some (zoneout_mask.subSlice i))
  else (0, none)

/-- The argument record built by the wrapper for forward step `i` with
previous-hidden contents `h` (gru.cc lines 168-186). -/
def fwdMkArgs (training : Bool) (inp : GruInputs)
    (zArg : ℕ → ℚ × Option (List ℚ)) (i : ℕ) (h : List ℚ) : FwdArgs :=
  { kernel := inp.kernel.data
    recurrent_kernel := inp.recurrent_kernel.data
    bias := inp.bias.data
    recurrent_bias := inp.recurrent_bias.data
    x := inp.x.subSlice i
    h := h
    v_isNull := !training
    zoneout_prob := (zArg i).1
    zoneout_mask := (zArg i).2 }

/-- The sequential forward loop (gru.cc lines 168-188): for each timestep the
wrapper calls Iterate and then advances `h` to the freshly written slice
(`h = new_h`).  Each list entry is (arguments, new hidden slice, v slice). -/
def fwdLoop (cell : FwdCell) (mk : ℕ → List ℚ → FwdArgs) :
    List ℕ → List ℚ → List (FwdArgs × List ℚ × List ℚ)
  | [], _ => []
  | i :: rest, h =>
    (mk i h, cell.newH (mk i h), cell.vOut (mk i h)) ::
      fwdLoop cell mk rest (cell.newH (mk i h))

/-- The outputs of one forward Compute call: the hidden-state tensor `h`, the
recorded-intermediate tensor `v`, and the trace of Iterate calls made. -/
structure FwdResult where
  h : Tensor
  v : Tensor
  calls : List FwdArgs
deriving Repr, DecidableEq

/-- The forward loop applied to the wrapper's inputs: timesteps
`0, ..., T-1` starting from the zeroed hidden buffer (the whole output is
cleared by `cudaMemset` at gru.cc line 158, and `h` initially aliases its
slice 0, so the step-0 call reads all zeros). -/
def fwdSteps (cell : FwdCell) (training : Bool) (inp : GruInputs)
    (zArg : ℕ → ℚ × Option (List ℚ)) : List (FwdArgs × List ℚ × List ℚ) :=
  fwdLoop cell (fwdMkArgs training inp zArg) (List.range (inp.x.dimSize 0))
    (List.replicate (inp.x.dimSize 1 * inp.recurrent_kernel.dimSize 0) 0)

/-- Assembly of the forward outputs: `h` is allocated with shape `[T,N,H]`
(gru.cc line 141) and `v` with shape `[T,N, training ? H*4 : 0]` (line 142);
in training mode `v` receives the per-step recorded intermediates, otherwise
it stays empty and every Iterate call gets a null `v` target (line 182). -/
def fwdAssemble (cell : FwdCell) (training : Bool) (inp : GruInputs)
    (zArg : ℕ → ℚ × Option (List ℚ)) : FwdResult :=
  { h := { shape := [inp.x.dimSize 0, inp.x.dimSize 1, inp.recurrent_kernel.dimSize 0]
           data := concatAll ((fwdSteps cell training inp zArg).map fun s => s.2.1) }
    v := { shape := [inp.x.dimSize 0, inp.x.dimSize 1,
                     if training then inp.recurrent_kernel.dimSize 0 * 4 else 0]
           data := if training then
                     concatAll ((fwdSteps cell training inp zArg).map fun s => s.2.2)
                   else [] }
    calls := (fwdSteps cell training inp zArg).map fun s => s.1 }

/-- Embedding of `HasteGruOp<T>::Compute` with the zoneout arguments
abstracted: the single boundary dimension check (gru.cc lines 137-139,
`OP_REQUIRES(input_size == kernel.dim_size(0))`) happens before the loop; on
failure the call is rejected and no Iterate call is made. -/
def hasteGruForwardWith (cell : FwdCell) (training : Bool) (inp : GruInputs)
    (zArg : ℕ → ℚ × Option (List ℚ)) : Except String FwdResult :=
  if inp.x.dimSize 2 = inp.kernel.dimSize 0 then
    Except.ok (fwdAssemble cell training inp zArg)
  else Except.error "input and kernel dimensions must match"

/-- Embedding of `HasteGruOp<T>::Compute` (gru.cc lines 122-189). -/
def hasteGruOpCompute (cell : FwdCell) (training : Bool) (zoneout_prob : ℚ)
    (inp : GruInputs) : Except String FwdResult :=
  hasteGruForwardWith cell training inp (fwdZoneoutArg zoneout_prob inp.zoneout_mask)

/-- Reference run with zoneout mechanics fully disabled, stated from the
spec's words: probability 0 and a null mask are passed to every Iterate
call. -/
def hasteGruOpComputeDisabled (cell : FwdCell) (training : Bool)
    (inp : GruInputs) : Except String FwdResult :=
  hasteGruForwardWith cell training inp (fun _ => (0, none))

/-! ### Structural lemmas about the forward loop -/

theorem fwdLoop_map_of_const {α : Type} (cell : FwdCell)
    (mk : ℕ → List ℚ → FwdArgs) (g : FwdArgs → α) (f : ℕ → α)
    (hg : ∀ i h, g (mk i h) = f i) :
    ∀ (l : List ℕ) (h : List ℚ),
      (fwdLoop cell mk l h).map (fun s => g s.1) = l.map f
  | [], _ => rfl
  | i :: rest, h => by
    simp only [fwdLoop, List.map_cons, hg,
      fwdLoop_map_of_const cell mk g f hg rest (cell.newH (mk i h))]

theorem fwdLoop_length (cell : FwdCell) (mk : ℕ → List ℚ → FwdArgs) :
    ∀ (l : List ℕ) (h : List ℚ), (fwdLoop cell mk l h).length = l.length
  | [], _ => rfl
  | i :: rest, h => by
    simp only [fwdLoop, List.length_cons,
      fwdLoop_length cell mk rest (cell.newH (mk i h))]

theorem fwdLoop_calls_shape (cell : FwdCell) (mk : ℕ → List ℚ → FwdArgs) :
    ∀ (l : List ℕ) (h : List ℚ) s, s ∈ fwdLoop cell mk l h →
      ∃ i h', i ∈ l ∧ s.1 = mk i h'
  | [], _, s, hs => by simp [fwdLoop] at hs
  | i :: rest, h, s, hs => by
    rw [fwdLoop, List.mem_cons] at hs
    rcases hs with hs | hs
    · exact ⟨i, h, List.mem_cons_self i rest, by rw [hs]⟩
    · obtain ⟨j, h', hj, hsj⟩ :=
        fwdLoop_calls_shape cell mk rest (cell.newH (mk i h)) s hs
      exact ⟨j, h', List.mem_cons_of_mem i hj, hsj⟩

/-! ### Backward pass: `HasteGruGradOp<T>::Compute` from `src/frameworks/tf/gru.cc` -/

/-- Arguments the wrapper passes to one `BackwardPass<T>::Iterate` call
(gru.cc lines 343-360), excluding the in-place accumulator pointers.  `h`
records the contents of the previous-hidden buffer at call time and
`zoneout_mask = none` models a null mask pointer. -/
structure BwdArgs where
  kernel : List ℚ
  recurrent_kernel : List ℚ
  bias : List ℚ
  recurrent_bias : List ℚ
  x : List ℚ
  h : List ℚ
  v : List ℚ
  dh_new : List ℚ
  zoneout_mask : Option (List ℚ)
deriving Repr, DecidableEq

/-- Modelled from the spec: the numerical behaviour of
`BackwardPass<T>::Iterate`, which is not part of this repository (only its
caller is).  Per the spec, one reverse step writes `dx[t]` outright,
accumulates additive contributions into `dW`, `dR`, `dbx`, `dbr`, and updates
the carried hidden-gradient `dh` in place. -/
structure BwdCell where
  dxOut : BwdArgs → List ℚ
  dWContrib : BwdArgs → List ℚ
  dRContrib : BwdArgs → List ℚ
  dbxContrib : BwdArgs → List ℚ
  dbrContrib : BwdArgs → List ℚ
  newDh : BwdArgs → List ℚ → List ℚ

/-- The nine input tensors of the `HasteGruGrad` op, in declaration order. -/
structure GruGradInputs where
  x_t : Tensor
  kernel_t : Tensor
  recurrent_kernel_t : Tensor
  bias : Tensor
  recurrent_bias : Tensor
  h_t : Tensor
  v : Tensor
  dh_new : Tensor
  zoneout_mask : Tensor
deriving Repr, DecidableEq

/-- Embedding of `has_zoneout = !!zoneout_mask.NumElements()` (gru.cc line
268): unlike the forward op, the gradient op consults only the mask tensor,
there is no zoneout probability attribute. -/
def bwdHasZoneout (zoneout_mask : Tensor) : Bool :=
  decide (zoneout_mask.numElements ≠ 0)

/-- Embedding of the mask argument passed to each backward Iterate call
(gru.cc line 360): `has_zoneout ? zoneout_mask.SubSlice(i)... : nullptr`. -/
def bwdZoneoutArg (zoneout_mask : Tensor) (i : ℕ) : Option (List ℚ) :=
  if bwdHasZoneout zoneout_mask then some (zoneout_mask.subSlice i) else none

/-- The argument record built by the wrapper for backward step `i`
(gru.cc lines 329-360).  The previous hidden state is
`i != 0 ? h_vector.SubSlice(i - 1) : zero_vector`, where `zero_vector` is a
`[batch, hidden]` temporary cleared by `cudaMemset` (lines 312-321). -/
def gradMkArgs (inp : GruGradInputs) (i : ℕ) : BwdArgs :=
  { kernel := inp.kernel_t.data
    recurrent_kernel := inp.recurrent_kernel_t.data
    bias := inp.bias.data
    recurrent_bias := inp.recurrent_bias.data
    x := inp.x_t.subSlice i
    h := if i = 0 then
           List.replicate (inp.x_t.dimSize 2 * inp.recurrent_kernel_t.dimSize 1) 0
         else inp.h_t.subSlice (i - 1)
    v := inp.v.subSlice i
    dh_new := inp.dh_new.subSlice i
    zoneout_mask := bwdZoneoutArg inp.zoneout_mask i }

/-- Element-wise in-place accumulation of a gradient contribution. -/
def addVec (a b : List ℚ) : List ℚ := List.zipWith (fun p q => p + q) a b

/-- The mutable buffers of the backward Compute call: the four gradient
accumulators, the carried hidden-gradient `dh`, the per-timestep `dx` slices
written so far, and the trace of Iterate calls made. -/
structure BwdState where
  dW : List ℚ
  dR : List ℚ
  dbx : List ℚ
  dbr : List ℚ
  dh : List ℚ
  dxSlices : List (ℕ × List ℚ)
  calls : List (ℕ × BwdArgs)
deriving Repr, DecidableEq

/-- One backward Iterate call as the wrapper performs it (gru.cc lines
343-360), with the accumulate-in-place semantics of the spec: `dW`, `dR`,
`dbx`, `dbr` receive additive contributions, `dh` is updated in place, and
the `dx` slice for this timestep is written outright. -/
def bwdStep (cell : BwdCell) (mk : ℕ → BwdArgs) (s : BwdState) (i : ℕ) : BwdState :=
  { dW := addVec s.dW (cell.dWContrib (mk i))
    dR := addVec s.dR (cell.dRContrib (mk i))
    dbx := addVec s.dbx (cell.dbxContrib (mk i))
    dbr := addVec s.dbr (cell.dbrContrib (mk i))
    dh := cell.newDh (mk i) s.dh
    dxSlices := s.dxSlices ++ [(i, cell.dxOut (mk i))]
    calls := s.calls ++ [(i, mk i)] }

/-- The state of the backward buffers just before the first Iterate call:
`dW`, `dR`, `dbx`, `dbr` and `dh` are cleared with `cudaMemset` (gru.cc lines
316-320) and no `dx` slice has been written. -/
def bwdInitState (input_size hidden_size batch_size : ℕ) : BwdState :=
  { dW := List.replicate (input_size * (hidden_size * 3)) 0
    dR := List.replicate (hidden_size * (hidden_size * 3)) 0
    dbx := List.replicate (hidden_size * 3) 0
    dbr := List.replicate (hidden_size * 3) 0
    dh := List.replicate (batch_size * hidden_size) 0
    dxSlices := []
    calls := [] }

/-- The outputs of one backward Compute call. -/
structure BwdResult where
  dx : Tensor
  dW : Tensor
  dR : Tensor
  dbx : Tensor
  dbr : Tensor
  dhFinal : List ℚ
  calls : List (ℕ × BwdArgs)
deriving Repr, DecidableEq

/-- The reverse loop of the backward Compute (gru.cc lines 329-361): steps
`T-1` down to `0` starting from the zeroed accumulators. -/
def gradLoopState (cell : BwdCell) (inp : GruGradInputs) : BwdState :=
  ((List.range (inp.x_t.dimSize 0)).reverse).foldl (bwdStep cell (gradMkArgs inp))
    (bwdInitState (inp.x_t.dimSize 1) (inp.recurrent_kernel_t.dimSize 1)
      (inp.x_t.dimSize 2))

/-- Embedding of `HasteGruGradOp<T>::Compute` (gru.cc lines 253-362).  Sizes
are read as `T = x_t.dim(0)`, `C = x_t.dim(1)`, `N = x_t.dim(2)`,
`H = recurrent_kernel_t.dim(1)` (lines 264-267); note that no dimension
consistency check is performed before the loop.  The `dx` output is assembled
from the per-timestep slices in ascending timestep order (the slices are
written in reverse execution order). -/
def hasteGruGradOpCompute (cell : BwdCell) (inp : GruGradInputs) : BwdResult :=
  { dx := { shape := [inp.x_t.dimSize 0, inp.x_t.dimSize 2, inp.x_t.dimSize 1]
            data := concatAll (((gradLoopState cell inp).dxSlices).reverse.map
              (fun p => p.2)) }
    dW := { shape := [inp.x_t.dimSize 1, inp.recurrent_kernel_t.dimSize 1 * 3]
            data := (gradLoopState cell inp).dW }
    dR := { shape := [inp.recurrent_kernel_t.dimSize 1,
                      inp.recurrent_kernel_t.dimSize 1 * 3]
            data := (gradLoopState cell inp).dR }
    dbx := { shape := [inp.recurrent_kernel_t.dimSize 1 * 3]
             data := (gradLoopState cell inp).dbx }
    dbr := { shape := [inp.recurrent_kernel_t.dimSize 1 * 3]
             data := (gradLoopState cell inp).dbr }
    dhFinal := (gradLoopState cell inp).dh
    calls := (gradLoopState cell inp).calls }

/-! ### Structural lemmas about the backward loop -/

theorem bwdLoop_spec (cell : BwdCell) (mk : ℕ → BwdArgs) :
    ∀ (l : List ℕ) (s : BwdState),
      l.foldl (bwdStep cell mk) s =
        { dW := (l.map fun i => cell.dWContrib (mk i)).foldl addVec s.dW
          dR := (l.map fun i => cell.dRContrib (mk i)).foldl addVec s.dR
          dbx := (l.map fun i => cell.dbxContrib (mk i)).foldl addVec s.dbx
          dbr := (l.map fun i => cell.dbrContrib (mk i)).foldl addVec s.dbr
          dh := l.foldl (fun d i => cell.newDh (mk i) d) s.dh
          dxSlices := s.dxSlices ++ l.map (fun i => (i, cell.dxOut (mk i)))
          calls := s.calls ++ l.map (fun i => (i, mk i)) }
  | [], s => by simp
  | i :: rest, s => by
    rw [List.foldl_cons, bwdLoop_spec cell mk rest (bwdStep cell mk s i)]
    simp [bwdStep]

/-- Closed form of the whole backward loop: every accumulator is the fold of
its per-step additive contributions over the zeroed initial buffers, the
carried `dh` is threaded through the steps, and the `dx` slices and call
trace list the steps in execution order `T-1, ..., 0`. -/
theorem gradLoopState_eq (cell : BwdCell) (inp : GruGradInputs) :
    gradLoopState cell inp =
      { dW := ((List.range (inp.x_t.dimSize 0)).reverse.map fun i =>
            cell.dWContrib (gradMkArgs inp i)).foldl addVec
            (List.replicate
              (inp.x_t.dimSize 1 * (inp.recurrent_kernel_t.dimSize 1 * 3)) 0)
        dR := ((List.range (inp.x_t.dimSize 0)).reverse.map fun i =>
            cell.dRContrib (gradMkArgs inp i)).foldl addVec
            (List.replicate
              (inp.recurrent_kernel_t.dimSize 1 *
                (inp.recurrent_kernel_t.dimSize 1 * 3)) 0)
        dbx := ((List.range (inp.x_t.dimSize 0)).reverse.map fun i =>
            cell.dbxContrib (gradMkArgs inp i)).foldl addVec
            (List.replicate (inp.recurrent_kernel_t.dimSize 1 * 3) 0)
        dbr := ((List.range (inp.x_t.dimSize 0)).reverse.map fun i =>
            cell.dbrContrib (gradMkArgs inp i)).foldl addVec
            (List.replicate (inp.recurrent_kernel_t.dimSize 1 * 3) 0)
        dh := (List.range (inp.x_t.dimSize 0)).reverse.foldl
            (fun d i => cell.newDh (gradMkArgs inp i) d)
            (List.replicate
              (inp.x_t.dimSize 2 * inp.recurrent_kernel_t.dimSize 1) 0)
        dxSlices := (List.range (inp.x_t.dimSize 0)).reverse.map
            (fun i => (i, cell.dxOut (gradMkArgs inp i)))
        calls := (List.range (inp.x_t.dimSize 0)).reverse.map
            (fun i => (i, gradMkArgs inp i)) } := by
  rw [gradLoopState, bwdLoop_spec]
  simp [bwdInitState]

/-! ### The process-wide cuBLAS handle cache -/

/-- The caller-visible CUDA driver state: the currently selected device. -/
structure CudaState where
  currentDevice : ℕ
deriving Repr, DecidableEq

/-- Embedding of `cublasCreate`: a handle is identified by the device that
was selected when it was created. -/
def cublasCreateOn (s : CudaState) : ℕ := s.currentDevice

/-- One iteration of the constructor loop of `CublasHandleContainer`
(gru.cc lines 48-53): select device `i`, create a handle there, push it. -/
def containerStep (acc : CudaState × List ℕ) (i : ℕ) : CudaState × List ℕ :=
  (({ currentDevice := i } : CudaState),
   acc.2 ++ [cublasCreateOn { currentDevice := i }])

/-- Embedding of the `CublasHandleContainer` constructor (gru.cc lines
43-55): it saves the currently selected device, walks all devices creating
one handle on each, and restores the saved device before returning. -/
def cublasHandleContainerCtor (deviceCount : ℕ) (s0 : CudaState) :
    CudaState × List ℕ :=
  (({ currentDevice := s0.currentDevice } : CudaState),
   ((List.range deviceCount).foldl containerStep (s0, [])).2)

/-- Embedding of `GetCublasHandle` (gru.cc lines 65-70).  The function-local
static container is modelled by the explicit process state
`proc : Option (List ℕ)`: `none` before first use, `some handles` afterwards.
A call lazily constructs the container if needed, reads the current device,
and returns the cached handle for that device together with the new process
and driver states. -/
def getCublasHandle (deviceCount : ℕ) (proc : Option (List ℕ)) (s : CudaState) :
    Option (List ℕ) × CudaState × ℕ :=
  match proc with
  | none =>
    (some (cublasHandleContainerCtor deviceCount s).2,
     (cublasHandleContainerCtor deviceCount s).1,
     ((cublasHandleContainerCtor deviceCount s).2).getD
       ((cublasHandleContainerCtor deviceCount s).1).currentDevice 0)
  | some handles => (some handles, s, handles.getD s.currentDevice 0)

/-- A sequence of `GetCublasHandle` calls, each made with the given device
selected; returns the final process state and the handles handed out. -/
def runGetHandleCalls (deviceCount : ℕ) :
    List ℕ → Option (List ℕ) → Option (List ℕ) × List ℕ
  | [], proc => (proc, [])
  | d :: rest, proc =>
    ((runGetHandleCalls deviceCount rest
        (getCublasHandle deviceCount proc { currentDevice := d }).1).1,
     (getCublasHandle deviceCount proc { currentDevice := d }).2.2 ::
       (runGetHandleCalls deviceCount rest
         (getCublasHandle deviceCount proc { currentDevice := d }).1).2)

theorem containerStep_fold (l : List ℕ) :
    ∀ acc : CudaState × List ℕ, (l.foldl containerStep acc).2 = acc.2 ++ l := by
  induction l with
  | nil => intro acc; simp
  | cons i rest ih =>
    intro acc
    rw [List.foldl_cons, ih]
    simp [containerStep, cublasCreateOn]

/-- The constructor creates exactly one handle per device, and the handle
stored at index `i` was created while device `i` was selected. -/
theorem cublasHandleContainerCtor_handles (deviceCount : ℕ) (s0 : CudaState) :
    (cublasHandleContainerCtor deviceCount s0).2 = List.range deviceCount := by
  rw [cublasHandleContainerCtor, containerStep_fold]
  simp

/-! ### Concrete instances used to exhibit concrete executions -/

/-- A concrete instantiation of the modelled forward step function. -/
def demoFwdCell : FwdCell :=
  { newH := fun a => a.h
    vOut := fun _ => [] }

/-- A concrete instantiation of the modelled backward step function. -/
def demoBwdCell : BwdCell :=
  { dxOut := fun a => a.x
    dWContrib := fun _ => []
    dRContrib := fun _ => []
    dbxContrib := fun _ => []
    dbrContrib := fun _ => []
    newDh := fun _ d => d }

/-- A well-formed forward problem with T = N = C = H = 1 and a non-empty
zoneout mask tensor. -/
def demoGruInputs : GruInputs :=
  { x := { shape := [1, 1, 1], data := [1] }
    kernel := { shape := [1, 3], data := [1, 1, 1] }
    recurrent_kernel := { shape := [1, 3], data := [0, 0, 0] }
    bias := { shape := [3], data := [0, 0, 0] }
    recurrent_bias := { shape := [3], data := [0, 0, 0] }
    zoneout_mask := { shape := [1, 1, 1], data := [1] } }

/-- A well-formed backward problem with T = N = C = H = 1 and the same
non-empty zoneout mask tensor as `demoGruInputs`. -/
def demoGradInputs : GruGradInputs :=
  { x_t := { shape := [1, 1, 1], data := [1] }
    kernel_t := { shape := [3, 1], data := [1, 1, 1] }
    recurrent_kernel_t := { shape := [3, 1], data := [0, 0, 0] }
    bias := { shape := [3], data := [0, 0, 0] }
    recurrent_bias := { shape := [3], data := [0, 0, 0] }
    h_t := { shape := [1, 1, 1], data := [2] }
    v := { shape := [1, 1, 4], data := [1, 1, 1, 1] }
    dh_new := { shape := [1, 1, 1], data := [1] }
    zoneout_mask := { shape := [1, 1, 1], data := [1] } }

/-! ### Claim C9 -/

/-- Claim C9: the derivative primitives are expressed in terms of the
activation value, not the pre-activation: `d_sigmoid s = s * (1 - s)` and
`d_tanh u = 1 - u * u`, and applying `d_sigmoid` to `sigmoid x` and `d_tanh`
to `tanh x` yields the respective true derivatives at `x` without recomputing
the forward math. -/
theorem claim_C9_derivative_primitives :
    (∀ s : ℝ, d_sigmoid s = s * (1 - s)) ∧
    (∀ u : ℝ, d_tanh u = 1 - u * u) ∧
    (∀ x : ℝ, HasDerivAt sigmoid (d_sigmoid (sigmoid x)) x) ∧
    (∀ x : ℝ, HasDerivAt Real.tanh (d_tanh (Real.tanh x)) x) :=
  ⟨fun _ => rfl, fun _ => rfl, sigmoid_hasDerivAt, tanh_hasDerivAt⟩

/-! ### Claim C2 -/

/-- Claim C2: for every legal problem size (T,N,C,H) and every forward call,
the hidden-state output `h` has shape [T,N,H], and the recorded-intermediate
output `v` has shape [T,N,4H] when the training flag is set and [T,N,0]
otherwise; in the non-training case a null `v` target is passed to every
Iterate call. -/
theorem claim_C2_forward_shapes (cell : FwdCell) (training : Bool)
    (zoneout_prob : ℚ) (inp : GruInputs) (T N C H : ℕ)
    (hx : inp.x.shape = [T, N, C]) (hk : inp.kernel.shape = [C, H * 3])
    (hrk : inp.recurrent_kernel.shape = [H, H * 3]) :
    ∃ r, hasteGruOpCompute cell training zoneout_prob inp = Except.ok r ∧
      r.h.shape = [T, N, H] ∧
      r.v.shape = [T, N, if training then H * 4 else 0] ∧
      ∀ a ∈ r.calls, a.v_isNull = !training := by
  have hok : inp.x.dimSize 2 = inp.kernel.dimSize 0 := by
    simp [Tensor.dimSize, hx, hk]
  rw [hasteGruOpCompute, hasteGruForwardWith, if_pos hok]
  refine ⟨_, rfl, ?_, ?_, ?_⟩
  · simp [fwdAssemble, Tensor.dimSize, hx, hrk]
  · simp [fwdAssemble, Tensor.dimSize, hx, hrk]
  · intro a ha
    simp only [fwdAssemble, List.mem_map] at ha
    obtain ⟨s, hs, rfl⟩ := ha
    obtain ⟨i, h', _, hsi⟩ := fwdLoop_calls_shape _ _ _ _ s hs
    rw [hsi]
    rfl

/-- Witness for claim C2 at a concrete training-mode call with
T = N = C = H = 1. -/
theorem claim_C2_forward_shapes_witness :
    ∃ r, hasteGruOpCompute demoFwdCell true 0 demoGruInputs = Except.ok r ∧
      r.h.shape = [1, 1, 1] ∧
      r.v.shape = [1, 1, if true then 1 * 4 else 0] ∧
      ∀ a ∈ r.calls, a.v_isNull = !true :=
  claim_C2_forward_shapes demoFwdCell true 0 demoGruInputs 1 1 1 1 rfl rfl rfl

/-! ### Claim C3 -/

/-- Claim C3 fails on the backward op: this concrete `HasteGruGrad` call
supplies a `kernel_t` buffer whose feature dimension (5) mismatches the
engine's input feature size read from `x_t` (2), yet the call is not
rejected: the per-timestep loop runs and performs its Iterate call. -/
def gradMismatchInputs : GruGradInputs :=
  { x_t := { shape := [1, 2, 1], data := [5, 6] }
    kernel_t := { shape := [3, 5], data := List.replicate 15 1 }
    recurrent_kernel_t := { shape := [3, 1], data := [0, 0, 0] }
    bias := { shape := [3], data := [0, 0, 0] }
    recurrent_bias := { shape := [3], data := [0, 0, 0] }
    h_t := { shape := [1, 1, 1], data := [2] }
    v := { shape := [1, 1, 4], data := [1, 1, 1, 1] }
    dh_new := { shape := [1, 1, 1], data := [1] }
    zoneout_mask := { shape := [0, 0, 0], data := [] } }

/-- Counterexample to claim C3: a backward call whose `kernel_t` feature
dimension mismatches the input feature size from `x_t` is not rejected — the
backward Compute performs no dimension check, and an Iterate call is made. -/
theorem claim_C3_counterexample :
    gradMismatchInputs.kernel_t.dimSize 1 ≠ gradMismatchInputs.x_t.dimSize 1 ∧
    (hasteGruGradOpCompute demoBwdCell gradMismatchInputs).calls.length = 1 := by
  constructor
  · decide
  · rfl

/-- Claim C3 amended: only the forward op checks a dimension mismatch (input
feature size against the kernel's first dimension); the mismatch is detected
once at the boundary before the per-timestep loop and the call is rejected
with no partial output and no Iterate call.  The backward Compute performs no
dimension check and proceeds into its loop regardless. -/
theorem claim_C3_forward_reject (cell : FwdCell) (training : Bool)
    (zoneout_prob : ℚ) (inp : GruInputs)
    (hmis : inp.x.dimSize 2 ≠ inp.kernel.dimSize 0) :
    hasteGruOpCompute cell training zoneout_prob inp
      = Except.error "input and kernel dimensions must match" := by
  rw [hasteGruOpCompute, hasteGruForwardWith, if_neg hmis]

/-- A forward problem whose input feature size (2) mismatches the kernel's
first dimension (1). -/
def fwdMismatchInputs : GruInputs :=
  { x := { shape := [1, 1, 2], data := [1, 2] }
    kernel := { shape := [1, 3], data := [1, 1, 1] }
    recurrent_kernel := { shape := [1, 3], data := [0, 0, 0] }
    bias := { shape := [3], data := [0, 0, 0] }
    recurrent_bias := { shape := [3], data := [0, 0, 0] }
    zoneout_mask := { shape := [0, 0, 0], data := [] } }

/-- Witness for the amended claim C3 at a concrete mismatched forward call. -/
theorem claim_C3_forward_reject_witness :
    hasteGruOpCompute demoFwdCell true 0 fwdMismatchInputs
      = Except.error "input and kernel dimensions must match" :=
  claim_C3_forward_reject demoFwdCell true 0 fwdMismatchInputs (by decide)

/-! ### Claim C4 -/

/-- Claim C4: a zoneout probability of 0 and an empty zoneout mask are
treated identically, both meaning zoneout disabled; in either case the whole
forward result (in particular the output `h`) is identical to a run of the
same inputs with zoneout mechanics fully disabled, i.e. probability 0 and a
null mask passed to every Iterate call. -/
theorem claim_C4_zoneout_disabled (cell : FwdCell) (training : Bool)
    (zoneout_prob : ℚ) (inp : GruInputs)
    (hdis : zoneout_prob = 0 ∨ inp.zoneout_mask.numElements = 0) :
    hasteGruOpCompute cell training zoneout_prob inp
      = hasteGruOpComputeDisabled cell training inp := by
  rw [hasteGruOpCompute, hasteGruOpComputeDisabled]
  congr 1
  funext i
  have hz : fwdHasZoneout zoneout_prob inp.zoneout_mask = false := by
    rcases hdis with h | h <;> simp [fwdHasZoneout, h]
  simp [fwdZoneoutArg, hz]

/-- Witness for claim C4: a concrete call with probability 0 and a non-empty
mask equals the fully disabled run. -/
theorem claim_C4_zoneout_disabled_witness :
    hasteGruOpCompute demoFwdCell true 0 demoGruInputs
      = hasteGruOpComputeDisabled demoFwdCell true demoGruInputs :=
  claim_C4_zoneout_disabled demoFwdCell true 0 demoGruInputs (Or.inl rfl)

/-! ### Claim C5 -/

/-- Claim C5: in every backward call the gradient accumulators `dW`, `dR`,
`dbx`, `dbr` and the carried hidden-gradient `dh` are zero before the first
reverse Iterate call (the memset at gru.cc lines 316-320) and are only ever
accumulated into across the reverse iteration — each final value is the fold
of the per-step additive contributions over the all-zero initial buffer —
while `dx` is a pure per-timestep overwrite: its slice for timestep `t`
depends only on step `t`'s arguments, with no cross-timestep accumulation. -/
theorem claim_C5_accumulators (cell : BwdCell) (inp : GruGradInputs)
    (T C N H : ℕ) (hT : inp.x_t.dimSize 0 = T) (hC : inp.x_t.dimSize 1 = C)
    (hN : inp.x_t.dimSize 2 = N) (hH : inp.recurrent_kernel_t.dimSize 1 = H) :
    (hasteGruGradOpCompute cell inp).dW.data
      = ((List.range T).reverse.map fun i => cell.dWContrib (gradMkArgs inp i)).foldl
          addVec (List.replicate (C * (H * 3)) 0) ∧
    (hasteGruGradOpCompute cell inp).dR.data
      = ((List.range T).reverse.map fun i => cell.dRContrib (gradMkArgs inp i)).foldl
          addVec (List.replicate (H * (H * 3)) 0) ∧
    (hasteGruGradOpCompute cell inp).dbx.data
      = ((List.range T).reverse.map fun i => cell.dbxContrib (gradMkArgs inp i)).foldl
          addVec (List.replicate (H * 3) 0) ∧
    (hasteGruGradOpCompute cell inp).dbr.data
      = ((List.range T).reverse.map fun i => cell.dbrContrib (gradMkArgs inp i)).foldl
          addVec (List.replicate (H * 3) 0) ∧
    (hasteGruGradOpCompute cell inp).dhFinal
      = (List.range T).reverse.foldl (fun d i => cell.newDh (gradMkArgs inp i) d)
          (List.replicate (N * H) 0) ∧
    (hasteGruGradOpCompute cell inp).dx.data
      = concatAll ((List.range T).map fun i => cell.dxOut (gradMkArgs inp i)) := by
  subst hT
  subst hC
  subst hN
  subst hH
  simp only [hasteGruGradOpCompute]
  rw [gradLoopState_eq]
  refine ⟨rfl, rfl, rfl, rfl, rfl, ?_⟩
  simp [concatAll, List.map_map, Function.comp_def]

/-- Witness for claim C5 at a concrete backward call with T = N = C = H = 1. -/
theorem claim_C5_accumulators_witness :
    (hasteGruGradOpCompute demoBwdCell demoGradInputs).dW.data
      = ((List.range 1).reverse.map fun i =>
          demoBwdCell.dWContrib (gradMkArgs demoGradInputs i)).foldl
          addVec (List.replicate (1 * (1 * 3)) 0) ∧
    (hasteGruGradOpCompute demoBwdCell demoGradInputs).dR.data
      = ((List.range 1).reverse.map fun i =>
          demoBwdCell.dRContrib (gradMkArgs demoGradInputs i)).foldl
          addVec (List.replicate (1 * (1 * 3)) 0) ∧
    (hasteGruGradOpCompute demoBwdCell demoGradInputs).dbx.data
      = ((List.range 1).reverse.map fun i =>
          demoBwdCell.dbxContrib (gradMkArgs demoGradInputs i)).foldl
          addVec (List.replicate (1 * 3) 0) ∧
    (hasteGruGradOpCompute demoBwdCell demoGradInputs).dbr.data
      = ((List.range 1).reverse.map fun i =>
          demoBwdCell.dbrContrib (gradMkArgs demoGradInputs i)).foldl
          addVec (List.replicate (1 * 3) 0) ∧
    (hasteGruGradOpCompute demoBwdCell demoGradInputs).dhFinal
      = (List.range 1).reverse.foldl
          (fun d i => demoBwdCell.newDh (gradMkArgs demoGradInputs i) d)
          (List.replicate (1 * 1) 0) ∧
    (hasteGruGradOpCompute demoBwdCell demoGradInputs).dx.data
      = concatAll ((List.range 1).map fun i =>
          demoBwdCell.dxOut (gradMkArgs demoGradInputs i)) :=
  claim_C5_accumulators demoBwdCell demoGradInputs 1 1 1 1 rfl rfl rfl rfl

/-! ### Claim C6 -/

/-- Claim C6: the recurrence's initial hidden state is the zero vector in
both passes.  The forward Iterate call at step 0 reads an all-zero
previous-hidden buffer (established by zeroing the output before the loop);
the backward Iterate call at t = 0 receives the zeroed `zero_vector`
temporary as `h[t-1]`, while every call at t > 0 receives the recorded
`h[t-1]` slice. -/
theorem claim_C6_initial_hidden (fcell : FwdCell) (bcell : BwdCell)
    (training : Bool) (zoneout_prob : ℚ) (inp : GruInputs) (ginp : GruGradInputs)
    (hok : inp.x.dimSize 2 = inp.kernel.dimSize 0) (hT : 1 ≤ inp.x.dimSize 0)
    (hTg : 1 ≤ ginp.x_t.dimSize 0) :
    (∃ r, hasteGruOpCompute fcell training zoneout_prob inp = Except.ok r ∧
      ∃ a, r.calls.head? = some a ∧
        a.h = List.replicate (inp.x.dimSize 1 * inp.recurrent_kernel.dimSize 0) 0) ∧
    ((hasteGruGradOpCompute bcell ginp).calls ≠ [] ∧
      ∀ p ∈ (hasteGruGradOpCompute bcell ginp).calls,
        (p.1 = 0 → p.2.h = List.replicate
            (ginp.x_t.dimSize 2 * ginp.recurrent_kernel_t.dimSize 1) 0) ∧
        ∀ t, p.1 = t + 1 → p.2.h = ginp.h_t.subSlice t) := by
  have hcalls : (hasteGruGradOpCompute bcell ginp).calls
      = ((List.range (ginp.x_t.dimSize 0)).reverse).map
          (fun i => (i, gradMkArgs ginp i)) := by
    simp only [hasteGruGradOpCompute]
    rw [gradLoopState_eq]
  constructor
  · rw [hasteGruOpCompute, hasteGruForwardWith, if_pos hok]
    refine ⟨_, rfl, ?_⟩
    obtain ⟨m, hm⟩ : ∃ m, inp.x.dimSize 0 = m + 1 :=
      ⟨inp.x.dimSize 0 - 1, by omega⟩
    refine ⟨fwdMkArgs training inp (fwdZoneoutArg zoneout_prob inp.zoneout_mask) 0
      (List.replicate (inp.x.dimSize 1 * inp.recurrent_kernel.dimSize 0) 0),
      ?_, rfl⟩
    simp [fwdAssemble, fwdSteps, hm, List.range_succ_eq_map, fwdLoop]
  · constructor
    · rw [hcalls]
      simp only [ne_eq, List.map_eq_nil_iff, List.reverse_eq_nil_iff,
        List.range_eq_nil]
      omega
    · intro p hp
      rw [hcalls] at hp
      simp only [List.mem_map, List.mem_reverse, List.mem_range] at hp
      obtain ⟨i, _, rfl⟩ := hp
      constructor
      · intro h0
        simp only at h0
        simp [gradMkArgs, h0]
      · intro t ht
        simp only at ht
        simp [gradMkArgs, ht]

/-- Witness for claim C6 at concrete forward and backward calls with
T = N = C = H = 1. -/
theorem claim_C6_initial_hidden_witness :
    (∃ r, hasteGruOpCompute demoFwdCell true 0 demoGruInputs = Except.ok r ∧
      ∃ a, r.calls.head? = some a ∧
        a.h = List.replicate
          (demoGruInputs.x.dimSize 1 * demoGruInputs.recurrent_kernel.dimSize 0) 0) ∧
    ((hasteGruGradOpCompute demoBwdCell demoGradInputs).calls ≠ [] ∧
      ∀ p ∈ (hasteGruGradOpCompute demoBwdCell demoGradInputs).calls,
        (p.1 = 0 → p.2.h = List.replicate
            (demoGradInputs.x_t.dimSize 2 *
              demoGradInputs.recurrent_kernel_t.dimSize 1) 0) ∧
        ∀ t, p.1 = t + 1 → p.2.h = demoGradInputs.h_t.subSlice t) :=
  claim_C6_initial_hidden demoFwdCell demoBwdCell true 0 demoGruInputs
    demoGradInputs rfl (by decide) (by decide)

/-! ### Claim C8 -/

/-- Claim C8: a zero-length sequence (T = 0) is legal.  A forward call with
T = 0 succeeds with empty `h` and `v` data and makes no Iterate call; a
backward call with T = 0 makes no Iterate call and returns all-zero `dW`,
`dR`, `dbx`, `dbr` and an empty `dx`. -/
theorem claim_C8_empty_sequence (fcell : FwdCell) (bcell : BwdCell)
    (training : Bool) (zoneout_prob : ℚ) (inp : GruInputs) (ginp : GruGradInputs)
    (hok : inp.x.dimSize 2 = inp.kernel.dimSize 0)
    (hT0 : inp.x.dimSize 0 = 0) (hTg0 : ginp.x_t.dimSize 0 = 0) :
    (∃ r, hasteGruOpCompute fcell training zoneout_prob inp = Except.ok r ∧
      r.h.data = [] ∧ r.v.data = [] ∧ r.calls = []) ∧
    ((hasteGruGradOpCompute bcell ginp).dW.data
        = List.replicate
            (ginp.x_t.dimSize 1 * (ginp.recurrent_kernel_t.dimSize 1 * 3)) 0 ∧
      (hasteGruGradOpCompute bcell ginp).dR.data
        = List.replicate
            (ginp.recurrent_kernel_t.dimSize 1 *
              (ginp.recurrent_kernel_t.dimSize 1 * 3)) 0 ∧
      (hasteGruGradOpCompute bcell ginp).dbx.data
        = List.replicate (ginp.recurrent_kernel_t.dimSize 1 * 3) 0 ∧
      (hasteGruGradOpCompute bcell ginp).dbr.data
        = List.replicate (ginp.recurrent_kernel_t.dimSize 1 * 3) 0 ∧
      (hasteGruGradOpCompute bcell ginp).dx.data = [] ∧
      (hasteGruGradOpCompute bcell ginp).calls = []) := by
  constructor
  · rw [hasteGruOpCompute, hasteGruForwardWith, if_pos hok]
    refine ⟨_, rfl, ?_, ?_, ?_⟩ <;>
      simp [fwdAssemble, fwdSteps, hT0, fwdLoop, concatAll]
  · refine ⟨?_, ?_, ?_, ?_, ?_, ?_⟩ <;>
      simp [hasteGruGradOpCompute, gradLoopState, hTg0, bwdInitState, concatAll]

/-- A well-formed forward problem with T = 0. -/
def fwdEmptyInputs : GruInputs :=
  { x := { shape := [0, 1, 1], data := [] }
    kernel := { shape := [1, 3], data := [1, 1, 1] }
    recurrent_kernel := { shape := [1, 3], data := [0, 0, 0] }
    bias := { shape := [3], data := [0, 0, 0] }
    recurrent_bias := { shape := [3], data := [0, 0, 0] }
    zoneout_mask := { shape := [0, 1, 1], data := [] } }

/-- A well-formed backward problem with T = 0. -/
def gradEmptyInputs : GruGradInputs :=
  { x_t := { shape := [0, 1, 1], data := [] }
    kernel_t := { shape := [3, 1], data := [1, 1, 1] }
    recurrent_kernel_t := { shape := [3, 1], data := [0, 0, 0] }
    bias := { shape := [3], data := [0, 0, 0] }
    recurrent_bias := { shape := [3], data := [0, 0, 0] }
    h_t := { shape := [0, 1, 1], data := [] }
    v := { shape := [0, 1, 4], data := [] }
    dh_new := { shape := [0, 1, 1], data := [] }
    zoneout_mask := { shape := [0, 0, 0], data := [] } }

/-- Witness for claim C8 at concrete T = 0 forward and backward calls. -/
theorem claim_C8_empty_sequence_witness :
    (∃ r, hasteGruOpCompute demoFwdCell true 0 fwdEmptyInputs = Except.ok r ∧
      r.h.data = [] ∧ r.v.data = [] ∧ r.calls = []) ∧
    ((hasteGruGradOpCompute demoBwdCell gradEmptyInputs).dW.data
        = List.replicate
            (gradEmptyInputs.x_t.dimSize 1 *
              (gradEmptyInputs.recurrent_kernel_t.dimSize 1 * 3)) 0 ∧
      (hasteGruGradOpCompute demoBwdCell gradEmptyInputs).dR.data
        = List.replicate
            (gradEmptyInputs.recurrent_kernel_t.dimSize 1 *
              (gradEmptyInputs.recurrent_kernel_t.dimSize 1 * 3)) 0 ∧
      (hasteGruGradOpCompute demoBwdCell gradEmptyInputs).dbx.data
        = List.replicate (gradEmptyInputs.recurrent_kernel_t.dimSize 1 * 3) 0 ∧
      (hasteGruGradOpCompute demoBwdCell gradEmptyInputs).dbr.data
        = List.replicate (gradEmptyInputs.recurrent_kernel_t.dimSize 1 * 3) 0 ∧
      (hasteGruGradOpCompute demoBwdCell gradEmptyInputs).dx.data = [] ∧
      (hasteGruGradOpCompute demoBwdCell gradEmptyInputs).calls = []) :=
  claim_C8_empty_sequence demoFwdCell demoBwdCell true 0 fwdEmptyInputs
    gradEmptyInputs rfl rfl rfl

/-! ### Claim C7 -/

theorem cublasHandleContainerCtor_fst (deviceCount : ℕ) (s0 : CudaState) :
    (cublasHandleContainerCtor deviceCount s0).1 = s0 := rfl

theorem runGetHandleCalls_some (deviceCount : ℕ) (c : List ℕ) :
    ∀ l : List ℕ, runGetHandleCalls deviceCount l (some c)
      = (some c, l.map fun d => c.getD d 0)
  | [] => rfl
  | d :: rest => by
    simp [runGetHandleCalls, getCublasHandle,
      runGetHandleCalls_some deviceCount c rest]

theorem runGetHandleCalls_none (deviceCount : ℕ) :
    ∀ l : List ℕ, runGetHandleCalls deviceCount l none
      = (if l = [] then none else some (List.range deviceCount),
         l.map fun d => (List.range deviceCount).getD d 0)
  | [] => rfl
  | d :: rest => by
    simp [runGetHandleCalls, getCublasHandle, cublasHandleContainerCtor_handles,
      cublasHandleContainerCtor_fst, runGetHandleCalls_some]

theorem range_getD (n d : ℕ) (h : d < n) : (List.range n).getD d 0 = d := by
  rw [List.getD_eq_getElem?_getD, List.getElem?_range h]
  rfl

/-- Claim C7: at most one cuBLAS handle exists per physical device for the
process lifetime.  The container is created lazily on the first
`GetCublasHandle` call (it is absent exactly while no call has been made),
holds exactly one handle per device — the handle at index `i` having been
created while device `i` was selected — is never destroyed or recreated by
later calls, and every lookup returns the cached handle keyed by the
currently selected device. -/
theorem claim_C7_handle_cache (deviceCount : ℕ) (devices : List ℕ)
    (s0 : CudaState) (hdev : ∀ d ∈ devices, d < deviceCount) :
    (runGetHandleCalls deviceCount devices none).1
      = (if devices = [] then none else some (List.range deviceCount)) ∧
    (∀ c : List ℕ, (runGetHandleCalls deviceCount devices (some c)).1 = some c) ∧
    (cublasHandleContainerCtor deviceCount s0).2.length = deviceCount ∧
    (cublasHandleContainerCtor deviceCount s0).2.Nodup ∧
    (runGetHandleCalls deviceCount devices none).2
      = devices.map (fun d => (List.range deviceCount).getD d 0) ∧
    (runGetHandleCalls deviceCount devices none).2 = devices := by
  refine ⟨?_, ?_, ?_, ?_, ?_, ?_⟩
  · rw [runGetHandleCalls_none]
  · intro c
    rw [runGetHandleCalls_some]
  · rw [cublasHandleContainerCtor_handles]
    exact List.length_range deviceCount
  · rw [cublasHandleContainerCtor_handles]
    exact List.nodup_range deviceCount
  · rw [runGetHandleCalls_none]
  · rw [runGetHandleCalls_none]
    calc devices.map (fun d => (List.range deviceCount).getD d 0)
        = devices.map id := by
          refine List.map_congr_left ?_
          intro d hd
          exact range_getD deviceCount d (hdev d hd)
      _ = devices := List.map_id devices

/-- Witness for claim C7: two devices, three lookups with devices 1, 0, 1
selected. -/
theorem claim_C7_handle_cache_witness :
    (runGetHandleCalls 2 [1, 0, 1] none).1
      = (if ([1, 0, 1] : List ℕ) = [] then none else some (List.range 2)) ∧
    (∀ c : List ℕ, (runGetHandleCalls 2 [1, 0, 1] (some c)).1 = some c) ∧
    (cublasHandleContainerCtor 2 { currentDevice := 0 }).2.length = 2 ∧
    (cublasHandleContainerCtor 2 { currentDevice := 0 }).2.Nodup ∧
    (runGetHandleCalls 2 [1, 0, 1] none).2
      = ([1, 0, 1] : List ℕ).map (fun d => (List.range 2).getD d 0) ∧
    (runGetHandleCalls 2 [1, 0, 1] none).2 = [1, 0, 1] :=
  claim_C7_handle_cache 2 [1, 0, 1] { currentDevice := 0 } (by decide)

/-! ### Claim C10 -/

/-- Claim C10: creating the cached handles leaves the caller-visible CUDA
device selection unchanged.  The container constructor saves the currently
selected device before iterating over all devices and restores it before
returning, and every `GetCublasHandle` call (whether or not it triggers the
one-time construction) leaves the driver state exactly as it found it. -/
theorem claim_C10_device_restored (deviceCount : ℕ) (s : CudaState) :
    (cublasHandleContainerCtor deviceCount s).1 = s ∧
    ∀ proc, (getCublasHandle deviceCount proc s).2.1 = s := by
  constructor
  · rfl
  · intro proc
    cases proc with
    | none => rfl
    | some handles => rfl

/-! ### Claim C1 -/

/-- The forward pass and the backward pass compute the per-timestep zoneout
mask argument identically exactly when the forward zoneout probability is
nonzero or the shared mask tensor is empty; gru.cc line 134 consults the
probability, line 268 does not. -/
theorem zoneoutArg_agree (zoneout_prob : ℚ) (M : Tensor)
    (hz : zoneout_prob ≠ 0 ∨ M.numElements = 0) (i : ℕ) :
    (fwdZoneoutArg zoneout_prob M i).2 = bwdZoneoutArg M i := by
  rcases hz with h | h
  · by_cases hM : M.numElements = 0
    · simp [fwdZoneoutArg, bwdZoneoutArg, fwdHasZoneout, bwdHasZoneout, hM]
    · simp [fwdZoneoutArg, bwdZoneoutArg, fwdHasZoneout, bwdHasZoneout, h, hM]
  · simp [fwdZoneoutArg, bwdZoneoutArg, fwdHasZoneout, bwdHasZoneout, h]

/-- Counterexample to claim C1: both ops are given the same non-empty
zoneout mask tensor, but the forward op's zoneout probability attribute is 0.
The forward Compute then passes a null mask to its Iterate call — so the
forward pass applies no zoneout blend at any timestep or unit — while the
backward Compute passes the mask slice to its Iterate call, routing gradient
through the frozen path per the mask.  The two passes therefore do not apply
the blend at the same units and timesteps. -/
theorem claim_C1_counterexample :
    demoGruInputs.zoneout_mask = demoGradInputs.zoneout_mask ∧
    Except.map (fun r => r.calls.map FwdArgs.zoneout_mask)
      (hasteGruOpCompute demoFwdCell true 0 demoGruInputs)
      = Except.ok [none] ∧
    (hasteGruGradOpCompute demoBwdCell demoGradInputs).calls.map
      (fun p => p.2.zoneout_mask) = [some [1]] := by
  refine ⟨rfl, ?_, ?_⟩ <;> rfl

/-- Claim C1 amended: for every forward/backward call pair supplied with the
same zoneout mask tensor, *provided the forward op's zoneout probability is
nonzero or the mask tensor is empty*, the zoneout blend is applied
identically during forward replay and backward differentiation: at every
timestep the two passes hand their Iterate call the identical mask argument
(the same per-unit mask slice, or a null mask for both), so the backward pass
routes gradient through the frozen path exactly where the forward pass
applied the blend.  (When the probability is 0 but the mask tensor is
non-empty, the forward pass disables the blend while the backward pass still
applies the mask routing — see the counterexample.) -/
theorem claim_C1_amended (fcell : FwdCell) (bcell : BwdCell) (training : Bool)
    (zoneout_prob : ℚ) (inp : GruInputs) (ginp : GruGradInputs)
    (hM : inp.zoneout_mask = ginp.zoneout_mask)
    (hT : inp.x.dimSize 0 = ginp.x_t.dimSize 0)
    (hok : inp.x.dimSize 2 = inp.kernel.dimSize 0)
    (hz : zoneout_prob ≠ 0 ∨ inp.zoneout_mask.numElements = 0) :
    ∃ r, hasteGruOpCompute fcell training zoneout_prob inp = Except.ok r ∧
      r.calls.map FwdArgs.zoneout_mask
        = ((hasteGruGradOpCompute bcell ginp).calls.map
            (fun p => p.2.zoneout_mask)).reverse := by
  rw [hasteGruOpCompute, hasteGruForwardWith, if_pos hok]
  refine ⟨_, rfl, ?_⟩
  have h1 : (fwdAssemble fcell training inp
        (fwdZoneoutArg zoneout_prob inp.zoneout_mask)).calls.map
          FwdArgs.zoneout_mask
      = (List.range (inp.x.dimSize 0)).map
          (fun i => (fwdZoneoutArg zoneout_prob inp.zoneout_mask i).2) := by
    simp only [fwdAssemble, fwdSteps, List.map_map, Function.comp_def]
    exact fwdLoop_map_of_const fcell
      (fwdMkArgs training inp (fwdZoneoutArg zoneout_prob inp.zoneout_mask))
      FwdArgs.zoneout_mask
      (fun i => (fwdZoneoutArg zoneout_prob inp.zoneout_mask i).2)
      (fun i h => rfl) _ _
  have h2 : (hasteGruGradOpCompute bcell ginp).calls.map
        (fun p => p.2.zoneout_mask)
      = (List.range (ginp.x_t.dimSize 0)).reverse.map
          (fun i => bwdZoneoutArg ginp.zoneout_mask i) := by
    simp only [hasteGruGradOpCompute]
    rw [gradLoopState_eq]
    simp [List.map_map, Function.comp_def, gradMkArgs]
  rw [h1, h2, ← List.map_reverse, List.reverse_reverse, ← hM, ← hT]
  refine List.map_congr_left ?_
  intro i _
  exact zoneoutArg_agree zoneout_prob inp.zoneout_mask hz i

/-- Witness for the amended claim C1 at a concrete call pair with a shared
non-empty mask tensor and a nonzero zoneout probability. -/
theorem claim_C1_amended_witness :
    ∃ r, hasteGruOpCompute demoFwdCell true 1 demoGruInputs = Except.ok r ∧
      r.calls.map FwdArgs.zoneout_mask
        = ((hasteGruGradOpCompute demoBwdCell demoGradInputs).calls.map
            (fun p => p.2.zoneout_mask)).reverse :=
  claim_C1_amended demoFwdCell demoBwdCell true 1 demoGruInputs demoGradInputs
    rfl rfl rfl (Or.inl (by norm_num))

end HasteGru
